import Mathlib

/-!
Verification development for the `checkout-form-submit` repository.

The repository is a small Python automation tool with three files:
`submit_form.py` (the Direct Submitter and Task Generator),
`submit_form_selenium.py` (the Browser Submitter), and
`test_form.py` (the Access Verifier).

Below, every Python function relevant to the claims is shallowly embedded as a
Lean definition.  Randomness (`random.random()`, `random.shuffle`,
`random.randint`) is reified as explicit parameters: a list of uniform draws
(rationals in `[0,1)`), a permutation function, and a natural-number draw
reduced modulo the range size.  Strings are modelled as `List Char`; Python
exceptions are modelled with `Except` over a small exception type; Python
dictionaries are modelled as association lists with an insert operation in
which a later insertion of an existing key overwrites its value in place.
-/

namespace FormSubmit

/-- Substring test on character lists: `strContains hay needle = true` iff
`needle` occurs contiguously inside `hay`.  Models Python's `needle in hay`
for strings. -/
def strContains (hay needle : List Char) : Bool :=
  (List.range (hay.length + 1)).any (fun i => needle.isPrefixOf (hay.drop i))

/-- Lower-casing of a character list, modelling Python's `str.lower()`
(restricted to the character-wise case mapping, which is what the source
relies on). -/
def toLowerL (s : List Char) : List Char := s.map Char.toLower

/-! ## Direct Submitter: response handling (`submit_form.py`, lines 122-139) -/

/-- An HTTP response as observed by `submit_google_form`: numeric status,
body text, and final URL after redirects. -/
structure HttpResponse where
  status : Nat
  text : List Char
  url : List Char

/-- The observable outcome of the Direct Submitter's response handling:
the returned boolean, and the diagnostic body excerpt printed on the failure
path (`response.text[:500]`), when any. -/
structure SubmitOutcome where
  success : Bool
  excerpt : Option (List Char)

/-- Mirror of the response handling in `submit_google_form`
(`src/submit_form.py` lines 126-139).  On status 200 the code branches on
`'formResponse' in response.url`, `'submitted' in response.text.lower()` and
`len(response.text) < 1000`, but both branches return `True`; on any other
status it prints `response.text[:500]` and returns `False`. -/
def handle_post_response (r : HttpResponse) : SubmitOutcome :=
  if r.status = 200 then
    if strContains r.url ("formResponse".toList)
        || strContains (toLowerL r.text) ("submitted".toList)
        || r.text.length < 1000 then
      { success := true, excerpt := none }
    else
      { success := true, excerpt := none }
  else
    { success := false, excerpt := some (r.text.take 500) }

/-! ## Task Generator (`submit_form.py`, lines 31-47) -/

/-- One entry of `work_tasks['optional_tasks']`: a task string and its
inclusion probability.  Python floats in `[0,1]` are modelled as rationals. -/
structure OptionalTask where
  task : List Char
  probability : Rat

/-- The task-pool configuration `config['work_tasks']`. -/
structure WorkTasks where
  required_tasks : List (List Char)
  optional_tasks : List OptionalTask

/-- Mirror of the optional-task selection loop (`src/submit_form.py`
lines 38-40): one uniform draw per entry (`random.random()`, reified as the
list `ds`), the entry is included iff its draw is strictly below its
configured probability. -/
def pickOptionals : List OptionalTask → List Rat → List (List Char)
  | [], _ => []
  | _ :: _, [] => []
  | t :: ts, d :: ds =>
    if d < t.probability then t.task :: pickOptionals ts ds
    else pickOptionals ts ds

/-- Model of Python's `"\n".join(lines)`. -/
def joinNl : List (List Char) → List Char
  | [] => []
  | [l] => l
  | l :: l2 :: ls => l ++ '\n' :: joinNl (l2 :: ls)

/-- Rendering of one task line, `f"- {task}"`. -/
def bulletLine (t : List Char) : List Char := '-' :: ' ' :: t

/-- Mirror of `generate_work_done` (`src/submit_form.py` lines 31-47).
`random.shuffle` is reified as the permutation `shuffle` actually sampled;
the per-entry uniform draws of the optional-task loop are the list `draws`. -/
def generate_work_done (wt : WorkTasks) (draws : List Rat)
    (shuffle : List (List Char) → List (List Char)) : List Char :=
  let required_tasks := wt.required_tasks
  let optional_tasks := pickOptionals wt.optional_tasks draws
  let all_tasks := shuffle (required_tasks ++ optional_tasks)
  joinNl (all_tasks.map bulletLine)

/-- Modelled from the spec's words (§4.1), for comparison with the source
definition `generate_work_done`: pair each optional entry with its draw,
keep those whose draw is strictly below the probability (one Bernoulli trial
per entry), concatenate after the required tasks, apply the sampled
permutation, render bulleted lines joined by newlines. -/
def generate_work_done_spec (wt : WorkTasks) (draws : List Rat)
    (shuffle : List (List Char) → List (List Char)) : List Char :=
  joinNl ((shuffle (wt.required_tasks ++
    (((wt.optional_tasks.zip draws).filter
        (fun p => decide (p.2 < p.1.probability))).map
      (fun p => p.1.task)))).map bulletLine)

/-- Splitting a character list at newline characters; the inverse of
`joinNl` on newline-free lines.  Used to state "each task on its own
bulleted line". -/
def splitNl : List Char → List (List Char)
  | [] => [[]]
  | c :: cs =>
    match splitNl cs with
    | [] => [[c]]
    | l :: ls => if c = '\n' then [] :: l :: ls else (c :: l) :: ls

/-- Occurrence count of a line among a list of lines. -/
def countL (l : List (List Char)) (x : List Char) : Nat :=
  match l with
  | [] => 0
  | y :: ys => (if y = x then 1 else 0) + countL ys x

/-! ## Direct Submitter: productivity rating (`submit_form.py`, lines 63-64) -/

/-- Model of Python's `random.randint(lo, hi)` (both bounds inclusive): the
draw is an arbitrary natural number, reduced modulo the size of the range.
For `lo ≤ hi` every value of `[lo, hi]` is reachable and nothing outside it
is. -/
def randint (lo hi : Int) (draw : Nat) : Int :=
  lo + ((draw % (hi - lo + 1).toNat : Nat) : Int)

/-- The configured productivity-rating range (`user_data['productivity_rating_range']`). -/
structure RatingRange where
  min : Int
  max : Int

/-- Mirror of `productivity_rating = random.randint(rating_range['min'],
rating_range['max'])` (`src/submit_form.py` line 64). -/
def gen_productivity_rating (r : RatingRange) (draw : Nat) : Int :=
  randint r.min r.max draw

/-! ## Direct Submitter: payload assembly (`submit_form.py`, lines 67-79) -/

/-- The eight semantic fields of the form payload. -/
inductive SemField
  | name
  | work_done
  | difficulties
  | agenda
  | date_year
  | date_month
  | date_day
  | productivity_rating
deriving DecidableEq, Fintype

/-- The eight semantic fields in the order the source dict literal lists
them (`src/submit_form.py` lines 67-76). -/
def semFields : List SemField :=
  [.name, .work_done, .difficulties, .agenda,
   .date_year, .date_month, .date_day, .productivity_rating]

/-- The generated submission values, one string per semantic field: the
configured name, the generated work-done text, the configured defaults, the
date parts and the rating rendered as decimal strings. -/
structure GenValues where
  name : String
  work_done : String
  difficulties : String
  agenda : String
  date_year : String
  date_month : String
  date_day : String
  productivity_rating : String

/-- The value the source assigns to a semantic field in the dict literal. -/
def semValue (g : GenValues) : SemField → String
  | .name => g.name
  | .work_done => g.work_done
  | .difficulties => g.difficulties
  | .agenda => g.agenda
  | .date_year => g.date_year
  | .date_month => g.date_month
  | .date_day => g.date_day
  | .productivity_rating => g.productivity_rating

/-- Python dict insertion on the association-list model: assigning to an
existing key overwrites its value in place, a fresh key is appended. -/
def dinsert (d : List (String × String)) (k v : String) : List (String × String) :=
  match d with
  | [] => [(k, v)]
  | p :: rest => if p.1 = k then (k, v) :: rest else p :: dinsert rest k v

/-- Python dict lookup on the association-list model. -/
def dlookup (d : List (String × String)) (k : String) : Option String :=
  match d with
  | [] => none
  | p :: rest => if p.1 = k then some p.2 else dlookup rest k

/-- The value carried by the LAST pair with key `k` in a raw pair list, if
any: the value that survives when the pairs are inserted left to right. -/
def lastLookup : List (String × String) → String → Option String
  | [], _ => none
  | p :: rest, k =>
    match lastLookup rest k with
    | some v => some v
    | none => if p.1 = k then some p.2 else none

/-- Mirror of the dict literal `form_data = {field_mappings['name']: ..., ...}`
(`src/submit_form.py` lines 67-76): the eight keyed values inserted in
source order.  `fm` is the configured `field_mappings`. -/
def build_form_data (fm : SemField → String) (g : GenValues) :
    List (String × String) :=
  semFields.foldl (fun d f => dinsert d (fm f) (semValue g f)) []

/-- Mirror of lines 67-79: the dict literal followed by
`form_data.update(hidden_params)` — hidden parameters merged last. -/
def submit_form_payload (fm : SemField → String) (g : GenValues)
    (hidden : List (String × String)) : List (String × String) :=
  hidden.foldl (fun d p => dinsert d p.1 p.2) (build_form_data fm g)

/-- A degenerate field mapping in which the name field and the work-done
field share one endpoint identifier. -/
def fmClash : SemField → String
  | .name => "e1"
  | .work_done => "e1"
  | .difficulties => "e3"
  | .agenda => "e4"
  | .date_year => "e5"
  | .date_month => "e6"
  | .date_day => "e7"
  | .productivity_rating => "e8"

/-- A field mapping with eight pairwise-distinct endpoint identifiers. -/
def fmDistinct : SemField → String
  | .name => "e1"
  | .work_done => "e2"
  | .difficulties => "e3"
  | .agenda => "e4"
  | .date_year => "e5"
  | .date_month => "e6"
  | .date_day => "e7"
  | .productivity_rating => "e8"

/-- A sample of generated submission values. -/
def gSample : GenValues :=
  ⟨"Alice", "- did things", "None", "More", "2026", "10", "12", "7"⟩

/-! ## Access Verifier (`test_form.py`, lines 38-54) -/

/-- Mirror of the found-fields loop (`src/test_form.py` lines 39-42): the
names whose configured identifier occurs verbatim in the page markup, in
configuration order.  A mapping entry pairs a semantic field name with its
endpoint identifier (here a character list, like the page markup). -/
def found_fields (mappings : List (String × List Char)) (page : List Char) :
    List String :=
  match mappings with
  | [] => []
  | m :: rest =>
    if strContains page m.2 then m.1 :: found_fields rest page
    else found_fields rest page

/-- Mirror of `missing_fields = set(field_mappings.keys()) - set(found_fields)`
(`src/test_form.py` line 48): the configured names not reported as found. -/
def missing_fields (mappings : List (String × List Char)) (page : List Char) :
    List String :=
  (mappings.map (fun m => m.1)).filter
    (fun k => decide (¬ k ∈ found_fields mappings page))

/-- Mirror of the return value of `test_form_access`
(`src/test_form.py` lines 33-57): on HTTP 200, whether every configured
field identifier was found; on any other status, failure. -/
def test_form_access (status : Nat) (page : List Char)
    (mappings : List (String × List Char)) : Bool :=
  if status = 200 then (found_fields mappings page).length == mappings.length
  else false

/-! ## Direct Submitter: network faults (`submit_form.py`, lines 103-145) -/

/-- Network-level faults; all are subclasses of
`requests.exceptions.RequestException`, the class the source catches. -/
inductive ReqError
  | timeout
  | dnsFailure
  | connReset

/-- The network behaviour of one run of `submit_google_form`: what the
session GET of the view page and the session POST of the form data each
produce. -/
structure NetWorld where
  getResult : Except ReqError HttpResponse
  postResult : Except ReqError HttpResponse

/-- Whether an HTTP call raised a network-level fault. -/
def reqFailed : Except ReqError HttpResponse → Bool
  | .error _ => true
  | .ok _ => false

/-- Mirror of the try/except structure of `submit_google_form`
(`src/submit_form.py` lines 103-145): the GET runs first; a fault in either
call jumps to the `RequestException` handler, which returns `False`; on a
completed POST the response handling of lines 126-139 decides the result.
The second component counts the POST attempts performed. -/
def submit_google_form (w : NetWorld) : Bool × Nat :=
  match w.getResult with
  | .error _ => (false, 0)
  | .ok _ =>
    match w.postResult with
    | .error _ => (false, 1)
    | .ok r => ((handle_post_response r).success, 1)

/-! ## Browser Submitter (`submit_form_selenium.py`) -/

/-- Python exception classes raised or caught in the Browser Submitter. -/
inductive PyExc
  | attributeError
  | typeError
  | timeoutExc
  | noSuchElement
  | otherExc
deriving DecidableEq

/-- The methods the selenium `WebDriverWait` class actually provides. -/
def webDriverWaitMethods : List String := ["until", "until_not"]

/-- Python attribute access on a `WebDriverWait` instance followed by a
call: a method name outside the class's method set raises `AttributeError`.
The source's form-load wait (`src/submit_form_selenium.py` line 105) invokes
a method named "wait". -/
def callWebDriverWait (method : String) : Except PyExc Unit :=
  if method ∈ webDriverWaitMethods then Except.ok ()
  else Except.error PyExc.attributeError

/-- A text-like input element (lines 111): its tag name and the text of the
enclosing question container located by the XPath ancestor lookup; `none`
models that lookup raising, which the per-element handler (lines 149-151)
turns into a skip. -/
structure TextInput where
  tag : String
  question : Option (List Char)

/-- Keyword set for the name field (line 124). -/
def kw_name : List (List Char) := ["name".toList, "naam".toList]

/-- Keyword set for the work-done field (line 130). -/
def kw_work : List (List Char) :=
  ["work done".toList, "work".toList, "progress".toList, "today".toList]

/-- Keyword set for the difficulties field (line 137). -/
def kw_diff : List (List Char) :=
  ["difficult".toList, "challenge".toList, "problem".toList, "issue".toList]

/-- Keyword set for the agenda field (line 143). -/
def kw_agenda : List (List Char) :=
  ["agenda".toList, "tomorrow".toList, "next".toList, "plan".toList]

/-- `any(keyword in question_text for keyword in [...])`. -/
def containsAny (qt : List Char) (kws : List (List Char)) : Bool :=
  kws.any (fun k => strContains qt k)

/-- Mirror of the per-element fill logic of the text-input loop
(lines 117-151): keyword matching against the lowered question text; the
work-done branch types only into a textarea.  Returns the number of fields
filled for this element. -/
def fill_text_input (e : TextInput) : Nat :=
  match e.question with
  | none => 0
  | some q0 =>
    let q := toLowerL q0
    if containsAny q kw_name then 1
    else if containsAny q kw_work then (if e.tag = "textarea" then 1 else 0)
    else if containsAny q kw_diff then 1
    else if containsAny q kw_agenda then 1
    else 0

/-- A date-shaped input element matched by the CSS selector of line 154:
its aria-label and its type attribute. -/
structure DateInput where
  ariaLabel : List Char
  typeAttr : List Char

/-- Selenium's `WebElement.get_attribute` takes exactly one argument, the
attribute name; a call with any other arity raises `TypeError`.  The source
calls `get_attribute('aria-label', '')` with a second (default) argument at
line 157. -/
def get_attribute (e : DateInput) (args : List String) : Except PyExc (List Char) :=
  match args with
  | [attr] =>
    if attr = "aria-label" then Except.ok e.ariaLabel
    else if attr = "type" then Except.ok e.typeAttr
    else Except.ok []
  | _ => Except.error PyExc.typeError

/-- The date part typed into one date input. -/
inductive DateSend
  | year
  | month
  | day
  | fullDate
deriving DecidableEq

/-- Mirror of the date-fill body for one element (lines 156-170): read the
aria-label via the two-argument call, branch on its lowered content, type
the matching date part; the count is incremented on every non-raising pass
(line 170 sits outside the branch chain). -/
def fill_date_input (e : DateInput) : Except PyExc (Option DateSend × Nat) := do
  let al0 ← get_attribute e ["aria-label", ""]
  let al := toLowerL al0
  if strContains al ("year".toList) then pure (some DateSend.year, 1)
  else if strContains al ("month".toList) then pure (some DateSend.month, 1)
  else if strContains al ("day".toList) then pure (some DateSend.day, 1)
  else do
    let ty ← get_attribute e ["type"]
    if ty = "date".toList then pure (some DateSend.fullDate, 1)
    else pure (none, 1)

/-- The bare `except: continue` around each date element (lines 171-172). -/
def date_step (e : DateInput) : Option DateSend × Nat :=
  match fill_date_input e with
  | Except.ok r => r
  | Except.error _ => (none, 0)

/-- Mirror of the date-fields loop (lines 154-172): accumulates the date
parts actually typed and the fill count. -/
def handle_date_fields (es : List DateInput) : List DateSend × Nat :=
  es.foldl (fun acc e =>
    let r := date_step e
    (acc.1 ++ r.1.toList, acc.2 + r.2)) ([], 0)

/-- Mirror of the rating step (lines 175-191): the exact-value selector list
first, the text-match fallback second; a click counts one field. -/
def handle_rating (byValue byText : Bool) : Nat :=
  if byValue then 1 else if byText then 1 else 0

/-- A candidate submit control as `is_displayed`/`is_enabled` observe it. -/
structure BtnElem where
  displayed : Bool
  enabled : Bool

/-- The fixed CSS selector list of lines 197-203. -/
def submit_selectors : List String :=
  ["input[type='submit']", "button[type='submit']", "div[role='button']",
   "[aria-label*='Submit']", "[data-submit='true']"]

/-- The fixed button-text list of line 215. -/
def submit_texts : List String := ["Submit", "Send", "Submit Form", "Done"]

/-- Mirror of the CSS selector loop (lines 205-211): `find_element` either
raises `NoSuchElementException` (modelled as `none`) or assigns
`submit_button`; the loop breaks at the first displayed and enabled button
but keeps the last assignment otherwise. -/
def submit_css_loop (find : String → Option BtnElem) :
    List String → Option BtnElem → Option BtnElem
  | [], acc => acc
  | s :: ss, acc =>
    match find s with
    | none => submit_css_loop find ss acc
    | some b =>
      if b.displayed && b.enabled then some b
      else submit_css_loop find ss (some b)

/-- Mirror of the text-fallback loop (lines 213-222), entered only when the
selector loop assigned nothing; breaks at the first displayed button. -/
def submit_text_loop (find : String → Option BtnElem) :
    List String → Option BtnElem → Option BtnElem
  | [], acc => acc
  | t :: ts, acc =>
    match find t with
    | none => submit_text_loop find ts acc
    | some b =>
      if b.displayed then some b
      else submit_text_loop find ts (some b)

/-- The success indicator words of line 237. -/
def success_words : List (List Char) :=
  ["submitted".toList, "thank you".toList, "received".toList,
   "response recorded".toList]

/-- Mirror of the post-click success check (lines 234-242): the current URL
is searched for lowercase "formresponse" as-is; the page source is lowered
first. -/
def check_success (url pageText : List Char) : Bool :=
  strContains url ("formresponse".toList)
    || success_words.any (fun w => strContains (toLowerL pageText) w)

/-- One loaded page as the Browser Submitter observes it: the outcome of
`driver.get`, the element query results, and the page state after the
click. -/
structure SelPage where
  getOutcome : Except PyExc Unit
  textInputs : List TextInput
  dateInputs : List DateInput
  ratingByValue : Bool
  ratingByText : Bool
  cssFind : String → Option BtnElem
  textFind : String → Option BtnElem
  afterUrl : List Char
  afterText : List Char

/-- The observable result of `fill_form_selenium`: the returned boolean and
the number of fields filled. -/
structure FillResult where
  success : Bool
  filled : Nat

/-- The body of the `try` block of `fill_form_selenium` (lines 100-245):
`driver.get`, the form-load wait — which invokes the non-existent
WebDriverWait method "wait" (line 105) — then the text-input loop, the date
loop, the rating step, the submit-control search with its text fallback,
and the click followed by the success check. -/
def fill_body (page : SelPage) : Except PyExc FillResult := do
  _ ← page.getOutcome
  _ ← callWebDriverWait "wait"
  let c1 := (page.textInputs.map fill_text_input).sum
  let dres := handle_date_fields page.dateInputs
  let c3 := handle_rating page.ratingByValue page.ratingByText
  let count := c1 + dres.2 + c3
  let btn :=
    match submit_css_loop page.cssFind submit_selectors none with
    | some b => some b
    | none => submit_text_loop page.textFind submit_texts none
  match btn with
  | some _ =>
    pure { success := check_success page.afterUrl page.afterText, filled := count }
  | none => pure { success := false, filled := count }

/-- Mirror of `fill_form_selenium` (lines 87-252): the try body wrapped in
the `TimeoutException` handler (lines 247-249) and the catch-all handler
(lines 250-252), both returning `False`.  The observed fill count is zero
whenever an exception escapes the body, since both possible raise sites
precede every fill. -/
def fill_form_selenium (page : SelPage) : FillResult :=
  match fill_body page with
  | Except.ok r => r
  | Except.error PyExc.timeoutExc => { success := false, filled := 0 }
  | Except.error _ => { success := false, filled := 0 }

/-- Driver lifecycle events observable in `submit_google_form_selenium`. -/
inductive DrvEvent
  | created
  | quitted
deriving DecidableEq

/-- The state of the function body of `submit_google_form_selenium`: the
local `driver` variable (`None` until the `driver = setup_driver()`
assignment completes) and the trace of lifecycle events. -/
structure DrvState where
  driver : Option Unit
  events : List DrvEvent

/-- Exceptions at the level of `submit_google_form_selenium`: the
`SystemExit` that `setup_driver`'s failure path raises via `sys.exit(1)`
(line 84) — not an `Exception` subclass, so nothing below the process
boundary catches it — or an exception escaping the fill attempt. -/
inductive TopExc
  | systemExit
  | fromFill (e : PyExc)

/-- The behaviour of the two fallible steps inside `setup_driver`'s try
block: `webdriver.Chrome(options=...)` (line 77) and
`driver.execute_script(...)` (line 79). -/
structure SetupWorld where
  chromeResult : Except PyExc Unit
  scriptResult : Except PyExc Unit

/-- Mirror of `setup_driver` (`src/submit_form_selenium.py` lines 57-84):
`webdriver.Chrome` either raises — then no driver instance exists — or
creates a driver instance; `driver.execute_script` may then raise; the
`except Exception` block (lines 81-84) catches either fault and calls
`sys.exit(1)`, modelled as the `SystemExit` outcome, without quitting any
created driver.  The event list records the driver instances the call
created (it never quits one). -/
def setup_driver (w : SetupWorld) : Except TopExc Unit × List DrvEvent :=
  match w.chromeResult with
  | Except.error _ => (Except.error TopExc.systemExit, [])
  | Except.ok _ =>
    match w.scriptResult with
    | Except.error _ => (Except.error TopExc.systemExit, [DrvEvent.created])
    | Except.ok _ => (Except.ok (), [DrvEvent.created])

/-- A try/finally block: run the body, then the finaliser on both the
normal and the exceptional path, propagating the body's outcome. -/
def tryFinally {α : Type} (body : DrvState → α × DrvState)
    (fin : DrvState → DrvState) (s : DrvState) : α × DrvState :=
  let r := body s
  (r.1, fin r.2)

/-- The try body of `submit_google_form_selenium` (lines 258-260):
`driver = setup_driver()` — the local `driver` is assigned only when the
call returns normally, so a `SystemExit` from inside `setup_driver` leaves
it `None` even when a driver instance was created there — then
`fill_form_selenium` runs with outcome `fill`, kept an arbitrary outcome so
that every exit path of the attempt, exceptional ones included, is
covered. -/
def selenium_attempt_body (w : SetupWorld) (fill : Except PyExc Bool)
    (s : DrvState) : Except TopExc Bool × DrvState :=
  let r := setup_driver w
  match r.1 with
  | Except.error e => (Except.error e, { s with events := s.events ++ r.2 })
  | Except.ok _ =>
    match fill with
    | Except.ok b =>
      (Except.ok b, { driver := some (), events := s.events ++ r.2 })
    | Except.error e =>
      (Except.error (TopExc.fromFill e),
        { driver := some (), events := s.events ++ r.2 })

/-- The `finally` block (lines 261-263): `if driver: driver.quit()` — it
quits only the driver the outer local variable holds. -/
def selenium_teardown (s : DrvState) : DrvState :=
  match s.driver with
  | some _ => { s with events := s.events ++ [DrvEvent.quitted] }
  | none => s

/-- Mirror of `submit_google_form_selenium` (lines 255-263): `driver = None`,
the attempt body inside try, and the unconditional finally. -/
def submit_google_form_selenium (w : SetupWorld) (fill : Except PyExc Bool) :
    Except TopExc Bool × DrvState :=
  tryFinally (selenium_attempt_body w fill) selenium_teardown
    { driver := none, events := [] }

/-- Whether a step inside `setup_driver` raised. -/
def excFailed : Except PyExc Unit → Bool
  | Except.error _ => true
  | Except.ok _ => false

/-! ## Theorems -/

/-- C1: whenever the POST completes, `submit_google_form` returns success
exactly when the HTTP status is 200 — independently of the response body and
final URL — and on a non-200 status the printed diagnostic excerpt is the
response body truncated to its first 500 characters. -/
theorem submit_status_determines_result (r : HttpResponse) :
    (handle_post_response r).success = decide (r.status = 200) ∧
    (r.status ≠ 200 →
      (handle_post_response r).excerpt = some (r.text.take 500)) := by
  unfold handle_post_response
  by_cases h : r.status = 200 <;> simp [h]

/-- Witness for C1 at concrete responses: a 200 response with an arbitrary
body succeeds; a 500 response fails with the truncated body excerpt. -/
theorem submit_status_determines_result_witness :
    (handle_post_response ⟨200, "anybody".toList, "u".toList⟩).success = true ∧
    (handle_post_response ⟨500, "Error".toList, "u".toList⟩).excerpt
      = some ("Error".toList.take 500) := by
  constructor
  · have h := (submit_status_determines_result ⟨200, "anybody".toList, "u".toList⟩).1
    simpa using h
  · exact (submit_status_determines_result ⟨500, "Error".toList, "u".toList⟩).2 (by decide)

/-- C9: for every configured range with `min ≤ max`, the generated
productivity rating lies in `[min, max]` inclusive, and in the degenerate
case `min = max` it equals that single value. -/
theorem productivity_rating_in_range (r : RatingRange) (draw : Nat)
    (h : r.min ≤ r.max) :
    r.min ≤ gen_productivity_rating r draw ∧
    gen_productivity_rating r draw ≤ r.max ∧
    (r.min = r.max → gen_productivity_rating r draw = r.min) := by
  unfold gen_productivity_rating randint
  have h1 : (0 : Int) ≤ r.max - r.min + 1 := by omega
  have h2 : ((r.max - r.min + 1).toNat : Int) = r.max - r.min + 1 :=
    Int.toNat_of_nonneg h1
  have h3 : 0 < (r.max - r.min + 1).toNat := by omega
  have h4 : draw % (r.max - r.min + 1).toNat < (r.max - r.min + 1).toNat :=
    Nat.mod_lt draw h3
  have h5 : ((draw % (r.max - r.min + 1).toNat : Nat) : Int) < r.max - r.min + 1 := by
    calc ((draw % (r.max - r.min + 1).toNat : Nat) : Int)
        < ((r.max - r.min + 1).toNat : Int) := by exact_mod_cast h4
      _ = r.max - r.min + 1 := h2
  refine ⟨by omega, by omega, ?_⟩
  intro heq
  have h6 : (r.max - r.min + 1).toNat = 1 := by omega
  rw [h6, Nat.mod_one]
  simp

/-- Witness for C9 at the degenerate range `min = max = 5` with draw 7. -/
theorem productivity_rating_in_range_witness :
    (5 : Int) ≤ gen_productivity_rating ⟨5, 5⟩ 7 ∧
    gen_productivity_rating ⟨5, 5⟩ 7 ≤ 5 ∧
    ((5 : Int) = 5 → gen_productivity_rating ⟨5, 5⟩ 7 = 5) :=
  productivity_rating_in_range ⟨5, 5⟩ 7 (by decide)

theorem splitNl_ne_nil (s : List Char) : splitNl s ≠ [] := by
  cases s with
  | nil => simp [splitNl]
  | cons c cs =>
    rw [splitNl]
    rcases h : splitNl cs with _ | ⟨l, ls⟩
    · simp
    · by_cases hc : c = '\n' <;> simp [hc]

theorem splitNl_cons_ne (c : Char) (cs : List Char) (hc : c ≠ '\n') :
    splitNl (c :: cs) = (c :: (splitNl cs).headD []) :: (splitNl cs).tail := by
  rw [splitNl]
  rcases h : splitNl cs with _ | ⟨l, ls⟩
  · exact absurd h (splitNl_ne_nil cs)
  · simp [hc]

theorem splitNl_cons_nl (cs : List Char) :
    splitNl ('\n' :: cs) = [] :: splitNl cs := by
  rw [splitNl]
  rcases h : splitNl cs with _ | ⟨l, ls⟩
  · exact absurd h (splitNl_ne_nil cs)
  · simp

theorem splitNl_no_nl (l : List Char) (h : '\n' ∉ l) : splitNl l = [l] := by
  induction l with
  | nil => rfl
  | cons c cs ih =>
    simp only [List.mem_cons, not_or] at h
    rw [splitNl_cons_ne c cs (fun hh => h.1 hh.symm), ih h.2]
    simp

theorem splitNl_append (l s : List Char) (hl : '\n' ∉ l) (sh : List Char)
    (st : List (List Char)) (hs : splitNl s = sh :: st) :
    splitNl (l ++ s) = (l ++ sh) :: st := by
  induction l with
  | nil => simpa using hs
  | cons c l ih =>
    simp only [List.mem_cons, not_or] at hl
    have hc : c ≠ '\n' := fun hh => hl.1 hh.symm
    rw [List.cons_append, splitNl_cons_ne c (l ++ s) hc, ih hl.2]
    simp

theorem splitNl_joinNl (L : List (List Char)) (hL : L ≠ [])
    (h : ∀ l ∈ L, '\n' ∉ l) : splitNl (joinNl L) = L := by
  induction L with
  | nil => exact absurd rfl hL
  | cons l ls ih =>
    cases ls with
    | nil => exact splitNl_no_nl l (h l (List.mem_cons_self l []))
    | cons l2 ls2 =>
      have hrec : splitNl (joinNl (l2 :: ls2)) = l2 :: ls2 :=
        ih (by simp) (fun x hx => h x (List.mem_cons_of_mem _ hx))
      have h2 : splitNl ('\n' :: joinNl (l2 :: ls2)) = [] :: l2 :: ls2 := by
        rw [splitNl_cons_nl, hrec]
      have h3 := splitNl_append l ('\n' :: joinNl (l2 :: ls2))
        (h l (List.mem_cons_self l _)) _ _ h2
      rw [joinNl, h3]
      simp

theorem countL_append (l₁ l₂ : List (List Char)) (x : List Char) :
    countL (l₁ ++ l₂) x = countL l₁ x + countL l₂ x := by
  induction l₁ with
  | nil => simp [countL]
  | cons y ys ih => simp [countL, ih, Nat.add_assoc]

theorem countL_eq_zero (l : List (List Char)) (x : List Char) (h : x ∉ l) :
    countL l x = 0 := by
  induction l with
  | nil => rfl
  | cons y ys ih =>
    simp only [List.mem_cons, not_or] at h
    have hy : ¬ y = x := fun hh => h.1 hh.symm
    simp [countL, ih h.2, if_neg hy]

theorem countL_eq_one (l : List (List Char)) (x : List Char)
    (hnd : l.Nodup) (hx : x ∈ l) : countL l x = 1 := by
  induction l with
  | nil => simp at hx
  | cons y ys ih =>
    rcases List.mem_cons.mp hx with rfl | hx2
    · have hy : x ∉ ys := (List.nodup_cons.mp hnd).1
      simp [countL, countL_eq_zero ys x hy]
    · have hy : y ≠ x := by
        intro hh
        subst hh
        exact (List.nodup_cons.mp hnd).1 hx2
      simp [countL, if_neg hy, ih (List.nodup_cons.mp hnd).2 hx2]

theorem countL_perm {l₁ l₂ : List (List Char)} (p : List.Perm l₁ l₂)
    (x : List Char) : countL l₁ x = countL l₂ x := by
  induction p with
  | nil => rfl
  | cons a p ih => simp [countL, ih]
  | swap a b l => simp [countL]; omega
  | trans p₁ p₂ ih₁ ih₂ => exact ih₁.trans ih₂

theorem bulletLine_injective : Function.Injective bulletLine := by
  intro a b h
  simpa [bulletLine] using h

theorem countL_map_bullet (l : List (List Char)) (x : List Char) :
    countL (l.map bulletLine) (bulletLine x) = countL l x := by
  induction l with
  | nil => rfl
  | cons y ys ih =>
    by_cases h : y = x
    · simp [countL, h, ih]
    · have hb : bulletLine y ≠ bulletLine x := fun hh => h (bulletLine_injective hh)
      simp [countL, if_neg hb, if_neg h, ih]

theorem pickOptionals_eq_filter (ts : List OptionalTask) (ds : List Rat)
    (h : ds.length = ts.length) :
    pickOptionals ts ds =
      ((ts.zip ds).filter (fun p => decide (p.2 < p.1.probability))).map
        (fun p => p.1.task) := by
  induction ts generalizing ds with
  | nil => simp [pickOptionals]
  | cons t ts ih =>
    cases ds with
    | nil => simp at h
    | cons d ds =>
      have hrec := ih ds (by simpa using h)
      by_cases hd : d < t.probability
      · simp [pickOptionals, hd, List.filter_cons, hrec]
      · simp [pickOptionals, hd, List.filter_cons, hrec]

theorem pickOptionals_sub (ts : List OptionalTask) (ds : List Rat)
    (x : List Char) (hx : x ∈ pickOptionals ts ds) : ∃ o ∈ ts, o.task = x := by
  induction ts generalizing ds with
  | nil => simp [pickOptionals] at hx
  | cons t ts ih =>
    cases ds with
    | nil => simp [pickOptionals] at hx
    | cons d ds =>
      rw [pickOptionals] at hx
      by_cases hd : d < t.probability
      · rw [if_pos hd] at hx
        rcases List.mem_cons.mp hx with hh | hh
        · exact ⟨t, List.mem_cons_self t ts, hh.symm⟩
        · obtain ⟨o, ho, rfl⟩ := ih ds hh
          exact ⟨o, List.mem_cons_of_mem t ho, rfl⟩
      · rw [if_neg hd] at hx
        obtain ⟨o, ho, rfl⟩ := ih ds hx
        exact ⟨o, List.mem_cons_of_mem t ho, rfl⟩

/-- C2: with the randomness reified (one uniform draw per optional entry and
the sampled permutation), `generate_work_done` returns exactly the rendering
described by the spec — required tasks, plus each optional entry included iff
its draw is strictly below its probability, shuffled together, one bulleted
line per task joined by newlines — and an all-empty task selection yields the
empty string rather than an error. -/
theorem generate_work_done_correct (wt : WorkTasks) (draws : List Rat)
    (shuffle : List (List Char) → List (List Char))
    (hlen : draws.length = wt.optional_tasks.length)
    (hperm : ∀ l, List.Perm (shuffle l) l) :
    generate_work_done wt draws shuffle = generate_work_done_spec wt draws shuffle ∧
    (wt.required_tasks = [] → pickOptionals wt.optional_tasks draws = [] →
      generate_work_done wt draws shuffle = []) := by
  constructor
  · unfold generate_work_done generate_work_done_spec
    rw [pickOptionals_eq_filter _ _ hlen]
  · intro h1 h2
    unfold generate_work_done
    rw [h1, h2]
    have h0 : shuffle [] = [] := (hperm []).eq_nil
    simp [h0, joinNl]

/-- Witness for C2 at a concrete pool: one required task, one optional task
with probability 1/2 whose draw 0 selects it, identity permutation. -/
theorem generate_work_done_correct_witness :
    generate_work_done ⟨["a".toList], [⟨"b".toList, (1 : Rat)/2⟩]⟩ [(0 : Rat)] id
      = generate_work_done_spec ⟨["a".toList], [⟨"b".toList, (1 : Rat)/2⟩]⟩ [(0 : Rat)] id :=
  (generate_work_done_correct ⟨["a".toList], [⟨"b".toList, (1 : Rat)/2⟩]⟩
    [(0 : Rat)] id (by decide) (fun l => List.Perm.refl l)).1

/-- C4 (amended): provided the required tasks are pairwise distinct, no
optional task string equals a required task, and no task contains a newline,
the rendered work-done text contains each required task exactly once, on its
own bulleted line. -/
theorem required_task_exactly_once (wt : WorkTasks) (draws : List Rat)
    (shuffle : List (List Char) → List (List Char))
    (hperm : ∀ l, List.Perm (shuffle l) l)
    (hnd : wt.required_tasks.Nodup)
    (hdisj : ∀ o ∈ wt.optional_tasks, o.task ∉ wt.required_tasks)
    (hnl_req : ∀ t ∈ wt.required_tasks, '\n' ∉ t)
    (hnl_opt : ∀ o ∈ wt.optional_tasks, '\n' ∉ o.task)
    (t : List Char) (ht : t ∈ wt.required_tasks) :
    countL (splitNl (generate_work_done wt draws shuffle)) (bulletLine t) = 1 := by
  unfold generate_work_done
  have hap : List.Perm (shuffle (wt.required_tasks ++ pickOptionals wt.optional_tasks draws))
      (wt.required_tasks ++ pickOptionals wt.optional_tasks draws) := hperm _
  have hnl : ∀ l ∈ (shuffle (wt.required_tasks ++ pickOptionals wt.optional_tasks draws)).map bulletLine,
      '\n' ∉ l := by
    intro l hl
    obtain ⟨s, hs, rfl⟩ := List.mem_map.mp hl
    have hs2 : s ∈ wt.required_tasks ++ pickOptionals wt.optional_tasks draws :=
      hap.mem_iff.mp hs
    have hsnl : '\n' ∉ s := by
      rcases List.mem_append.mp hs2 with hh | hh
      · exact hnl_req s hh
      · obtain ⟨o, ho, rfl⟩ := pickOptionals_sub _ _ _ hh
        exact hnl_opt o ho
    simp only [bulletLine, List.mem_cons, not_or]
    exact ⟨by decide, by decide, hsnl⟩
  have hmem : t ∈ shuffle (wt.required_tasks ++ pickOptionals wt.optional_tasks draws) :=
    hap.mem_iff.mpr (List.mem_append.mpr (Or.inl ht))
  have hne : (shuffle (wt.required_tasks ++ pickOptionals wt.optional_tasks draws)).map bulletLine ≠ [] := by
    intro hh
    rw [List.map_eq_nil_iff] at hh
    rw [hh] at hmem
    simp at hmem
  rw [splitNl_joinNl _ hne hnl, countL_map_bullet, countL_perm hap, countL_append]
  have h1 : countL wt.required_tasks t = 1 := countL_eq_one _ _ hnd ht
  have h2 : countL (pickOptionals wt.optional_tasks draws) t = 0 := by
    apply countL_eq_zero
    intro hmem2
    obtain ⟨o, ho, rfl⟩ := pickOptionals_sub _ _ _ hmem2
    exact hdisj o ho ht
  omega

/-- Counterexample for C4 as stated: with required task "a" and an optional
task equal to "a" at probability 1 (draw 0 includes it), the rendered text
contains the bulleted line of the required task twice, not exactly once. -/
theorem required_task_exactly_once_counterexample :
    ¬ (countL (splitNl (generate_work_done ⟨["a".toList], [⟨"a".toList, 1⟩]⟩
        [(0 : Rat)] id)) (bulletLine "a".toList) = 1) := by
  decide

/-- Witness for C4 at a concrete well-formed pool: two distinct required
tasks, no optional tasks, identity permutation; task "a" appears exactly
once. -/
theorem required_task_exactly_once_witness :
    countL (splitNl (generate_work_done ⟨["a".toList, "b".toList], []⟩ [] id))
      (bulletLine "a".toList) = 1 := by
  refine required_task_exactly_once ⟨["a".toList, "b".toList], []⟩ [] id
    (fun l => List.Perm.refl l) (by decide) ?_ ?_ ?_ "a".toList (by decide)
  · intro o ho
    simp at ho
  · intro t ht
    simp only [List.mem_cons] at ht
    rcases ht with rfl | ht2
    · decide
    · rcases ht2 with rfl | ht3
      · decide
      · simp at ht3
  · intro o ho
    simp at ho

theorem dlookup_dinsert (d : List (String × String)) (k v k' : String) :
    dlookup (dinsert d k v) k' = if k' = k then some v else dlookup d k' := by
  induction d with
  | nil =>
    by_cases h : k' = k
    · subst h
      simp [dinsert, dlookup]
    · have h2 : ¬ k = k' := fun hh => h hh.symm
      simp [dinsert, dlookup, h, h2]
  | cons p rest ih =>
    by_cases hp : p.1 = k
    · by_cases h : k' = k
      · subst h
        simp [dinsert, hp, dlookup]
      · have h2 : ¬ k = k' := fun hh => h hh.symm
        have h3 : ¬ p.1 = k' := by rw [hp]; exact h2
        simp [dinsert, hp, dlookup, h, h2, h3]
    · by_cases hq : p.1 = k'
      · have h : ¬ k' = k := by
          rw [← hq]
          exact fun hh => hp hh
        simp [dinsert, hp, dlookup, hq, h]
      · simp [dinsert, hp, dlookup, hq, ih]

theorem dlookup_foldl_dinsert (ps : List (String × String))
    (d : List (String × String)) (k : String) :
    dlookup (ps.foldl (fun d p => dinsert d p.1 p.2) d) k =
      match lastLookup ps k with
      | some v => some v
      | none => dlookup d k := by
  induction ps generalizing d with
  | nil => simp [lastLookup]
  | cons p ps ih =>
    rw [List.foldl_cons, ih, lastLookup]
    cases h : lastLookup ps k with
    | some v => rfl
    | none =>
      rw [dlookup_dinsert]
      by_cases hk : p.1 = k
      · simp [hk]
      · have hk2 : ¬ k = p.1 := fun hh => hk hh.symm
        simp [hk, hk2]

theorem dlookup_foldl_fields (l : List SemField) (fm : SemField → String)
    (g : GenValues) (d : List (String × String)) (k : String) :
    dlookup (l.foldl (fun d f => dinsert d (fm f) (semValue g f)) d) k =
      match lastLookup (l.map (fun f => (fm f, semValue g f))) k with
      | some v => some v
      | none => dlookup d k := by
  induction l generalizing d with
  | nil => simp [lastLookup]
  | cons f l ih =>
    rw [List.foldl_cons, ih, List.map_cons, lastLookup]
    cases h : lastLookup (l.map (fun f => (fm f, semValue g f))) k with
    | some v => rfl
    | none =>
      rw [dlookup_dinsert]
      by_cases hk : fm f = k
      · simp [hk]
      · have hk2 : ¬ k = fm f := fun hh => hk hh.symm
        simp [hk, hk2]

theorem lastLookup_map_none (fm : SemField → String) (g : GenValues)
    (l : List SemField) (k : String) (h : ∀ f ∈ l, fm f ≠ k) :
    lastLookup (l.map (fun f => (fm f, semValue g f))) k = none := by
  induction l with
  | nil => rfl
  | cons f l ih =>
    rw [List.map_cons, lastLookup, ih (fun x hx => h x (List.mem_cons_of_mem f hx))]
    simp [h f (List.mem_cons_self f l)]

theorem lastLookup_map_some (fm : SemField → String) (g : GenValues)
    (hinj : Function.Injective fm) (l : List SemField) (f0 : SemField)
    (hf : f0 ∈ l) :
    lastLookup (l.map (fun f => (fm f, semValue g f))) (fm f0)
      = some (semValue g f0) := by
  induction l with
  | nil => simp at hf
  | cons f l ih =>
    rw [List.map_cons, lastLookup]
    by_cases hmem : f0 ∈ l
    · rw [ih hmem]
    · have hf0 : f0 = f := by
        rcases List.mem_cons.mp hf with h | h
        · exact h
        · exact absurd h hmem
      obtain rfl := hf0
      have hnone : lastLookup (l.map (fun f => (fm f, semValue g f))) (fm f0) = none := by
        apply lastLookup_map_none
        intro x hx hcontra
        exact hmem (hinj hcontra ▸ hx)
      rw [hnone]
      simp

/-- C5 (amended): provided the eight configured endpoint identifiers are
pairwise distinct, the assembled payload maps each semantic field's
identifier to that field's generated value unless a hidden parameter carries
the same identifier, in which case the hidden parameter's value is the one
sent; hidden parameters win on any collision because they are merged last. -/
theorem payload_fields_and_hidden (fm : SemField → String) (g : GenValues)
    (hidden : List (String × String)) (hinj : Function.Injective fm) :
    (∀ f : SemField, dlookup (submit_form_payload fm g hidden) (fm f) =
      some ((lastLookup hidden (fm f)).getD (semValue g f))) ∧
    (∀ k v, lastLookup hidden k = some v →
      dlookup (submit_form_payload fm g hidden) k = some v) := by
  constructor
  · intro f
    unfold submit_form_payload
    rw [dlookup_foldl_dinsert]
    have hb : dlookup (build_form_data fm g) (fm f) = some (semValue g f) := by
      unfold build_form_data
      rw [dlookup_foldl_fields]
      rw [lastLookup_map_some fm g hinj semFields f (by cases f <;> decide)]
    cases h : lastLookup hidden (fm f) with
    | some v => simp
    | none => simp [hb]
  · intro k v hkv
    unfold submit_form_payload
    rw [dlookup_foldl_dinsert, hkv]

/-- C5 counterexample: when two semantic fields share one endpoint
identifier (here name and work_done both map to "e1"), the later field's
value overwrites the earlier one, so the payload no longer maps the name
field to its identifier — its value is absent from the payload. -/
theorem payload_fields_counterexample :
    ¬ (dlookup (submit_form_payload fmClash gSample []) (fmClash SemField.name)
        = some (semValue gSample SemField.name)) := by
  decide

/-- Witness for C5 at a distinct-identifier mapping with one hidden
parameter. -/
theorem payload_fields_and_hidden_witness :
    dlookup (submit_form_payload fmDistinct gSample [("h1", "hv")])
        (fmDistinct SemField.name)
      = some ((lastLookup [("h1", "hv")] (fmDistinct SemField.name)).getD
          (semValue gSample SemField.name)) :=
  (payload_fields_and_hidden fmDistinct gSample [("h1", "hv")] (by decide)).1
    SemField.name

theorem found_fields_cons (m : String × List Char)
    (rest : List (String × List Char)) (page : List Char) :
    found_fields (m :: rest) page =
      if strContains page m.2 then m.1 :: found_fields rest page
      else found_fields rest page := rfl

theorem found_fields_eq_filter (mappings : List (String × List Char))
    (page : List Char) :
    found_fields mappings page =
      (mappings.filter (fun m => strContains page m.2)).map (fun m => m.1) := by
  induction mappings with
  | nil => rfl
  | cons m rest ih =>
    rw [found_fields_cons, List.filter_cons]
    cases hp : strContains page m.2 with
    | true => simp [ih, hp]
    | false => simp [ih, hp]

theorem found_fields_sub (mappings : List (String × List Char)) (page : List Char)
    (k : String) (hk : k ∈ found_fields mappings page) :
    ∃ m ∈ mappings, m.1 = k ∧ strContains page m.2 = true := by
  rw [found_fields_eq_filter] at hk
  obtain ⟨m, hm, rfl⟩ := List.mem_map.mp hk
  have h2 := List.mem_filter.mp hm
  exact ⟨m, h2.1, rfl, h2.2⟩

theorem missing_fields_eq_filter (mappings : List (String × List Char))
    (page : List Char)
    (hnd : (mappings.map (fun m => m.1)).Nodup) :
    missing_fields mappings page =
      (mappings.filter (fun m => !(strContains page m.2))).map
        (fun m => m.1) := by
  induction mappings with
  | nil => rfl
  | cons m rest ih =>
    rw [List.map_cons, List.nodup_cons] at hnd
    obtain ⟨hhead, hnd2⟩ := hnd
    have hrest := ih hnd2
    unfold missing_fields at hrest ⊢
    have htail : ∀ k ∈ rest.map (fun m => m.1),
        (decide (¬ k ∈ found_fields (m :: rest) page))
          = (decide (¬ k ∈ found_fields rest page)) := by
      intro k hk
      have hkne : ¬ k = m.1 := fun hh => hhead (hh ▸ hk)
      rw [found_fields_cons]
      cases hp : strContains page m.2 with
      | true => simp [List.mem_cons, hkne]
      | false => simp
    rw [List.map_cons, List.filter_cons, List.filter_congr htail, hrest,
      List.filter_cons]
    cases hp : strContains page m.2 with
    | true =>
      have hin : m.1 ∈ found_fields (m :: rest) page := by
        rw [found_fields_cons, hp]
        simp
      simp [hin, hp]
    | false =>
      have hnotin : ¬ m.1 ∈ found_fields rest page := by
        intro hmem
        obtain ⟨mm, hmm, hmk, _⟩ := found_fields_sub rest page m.1 hmem
        exact hhead (List.mem_map.mpr ⟨mm, hmm, hmk⟩)
      have hnotin2 : ¬ m.1 ∈ found_fields (m :: rest) page := by
        rw [found_fields_cons, hp]
        simpa using hnotin
      simp [hnotin2, hp]

/-- C6: the Access Verifier reports as found exactly the configured field
names whose identifier occurs verbatim in the page markup, as missing
exactly the others, the two counts add up to the number of configured
fields, and on HTTP 200 the overall boolean holds exactly when every field
was found. -/
theorem access_verifier_report (mappings : List (String × List Char))
    (page : List Char)
    (hnd : (mappings.map (fun m => m.1)).Nodup) :
    found_fields mappings page
        = (mappings.filter (fun m => strContains page m.2)).map
            (fun m => m.1) ∧
    missing_fields mappings page
        = (mappings.filter (fun m => !(strContains page m.2))).map
            (fun m => m.1) ∧
    (found_fields mappings page).length + (missing_fields mappings page).length
        = mappings.length ∧
    (test_form_access 200 page mappings = true ↔
      (found_fields mappings page).length = mappings.length) := by
  refine ⟨found_fields_eq_filter mappings page,
    missing_fields_eq_filter mappings page hnd, ?_, ?_⟩
  · rw [found_fields_eq_filter, missing_fields_eq_filter mappings page hnd]
    simp only [List.length_map]
    have hp := (List.filter_append_perm
      (fun m => strContains page m.2) mappings).length_eq
    simp only [List.length_append] at hp
    omega
  · unfold test_form_access
    simp

/-- Witness for C6 at a concrete two-field configuration whose page contains
one of the two identifiers: one found, one missing, overall failure. -/
theorem access_verifier_report_witness :
    found_fields [("name", "e1".toList), ("work", "e2".toList)]
        ("xx e1 yy".toList) = ["name"] ∧
    missing_fields [("name", "e1".toList), ("work", "e2".toList)]
        ("xx e1 yy".toList) = ["work"] ∧
    test_form_access 200 ("xx e1 yy".toList)
        [("name", "e1".toList), ("work", "e2".toList)] = false := by
  have h := access_verifier_report [("name", "e1".toList), ("work", "e2".toList)]
    ("xx e1 yy".toList) (by decide)
  refine ⟨h.1.trans (by decide), h.2.1.trans (by decide), ?_⟩
  rcases Bool.eq_false_or_eq_true
      (test_form_access 200 ("xx e1 yy".toList)
        [("name", "e1".toList), ("work", "e2".toList)]) with ht | hf
  · exact absurd (h.2.2.2.mp ht) (by decide)
  · exact hf

/-- C7: every network-level fault raised during the GET or the POST is
caught and reported as failure rather than propagated, and every invocation
performs at most one POST attempt. -/
theorem network_fault_handling (w : NetWorld) :
    ((reqFailed w.getResult = true ∨ reqFailed w.postResult = true) →
      (submit_google_form w).1 = false) ∧
    (submit_google_form w).2 ≤ 1 := by
  obtain ⟨g, p⟩ := w
  constructor
  · intro h
    cases g with
    | error e => rfl
    | ok r =>
      cases p with
      | error e => rfl
      | ok r2 =>
        rcases h with h | h <;> simp [reqFailed] at h
  · cases g with
    | error e => simp [submit_google_form]
    | ok r => cases p <;> simp [submit_google_form]

/-- Witness for C7: a timed-out GET yields failure, not a fault. -/
theorem network_fault_handling_witness :
    (submit_google_form ⟨Except.error ReqError.timeout,
      Except.error ReqError.timeout⟩).1 = false :=
  (network_fault_handling ⟨Except.error ReqError.timeout,
    Except.error ReqError.timeout⟩).1 (Or.inl rfl)

/-- C3: for every configuration and page state, `fill_form_selenium` returns
failure with zero fields filled: the form-load wait invokes the non-existent
WebDriverWait method "wait", so every invocation that survives `driver.get`
raises `AttributeError` into the catch-all handler before any field is
processed, and a failing `driver.get` reaches a handler the same way. -/
theorem fill_form_selenium_always_fails (page : SelPage) :
    fill_form_selenium page = { success := false, filled := 0 } := by
  unfold fill_form_selenium fill_body
  cases hg : page.getOutcome with
  | error e => cases e <;> rfl
  | ok u => rfl

/-- C8 (evaluation of the date-fill code): the date loop fills nothing on
any page: the two-argument `get_attribute('aria-label', '')` call raises
`TypeError` for every date-shaped input and the bare `except: continue`
skips the element, so no date part is ever typed. -/
theorem handle_date_fields_fills_nothing (es : List DateInput) :
    handle_date_fields es = ([], 0) := by
  unfold handle_date_fields
  induction es with
  | nil => rfl
  | cons e es ih => exact ih

/-- C10 counterexample: when the browser launch succeeds (line 77) and the
automation-masking `execute_script` call then raises (line 79),
`setup_driver` exits via `sys.exit(1)` (line 84): a driver instance was
created, the `SystemExit` propagates through the caller's finally while the
caller's local `driver` is still `None`, and the created driver is never
quit — refuting teardown on every exit path. -/
theorem selenium_setup_leak_counterexample :
    DrvEvent.created ∈ (submit_google_form_selenium
        ⟨Except.ok (), Except.error PyExc.otherExc⟩ (Except.ok true)).2.events ∧
    ¬ DrvEvent.quitted ∈ (submit_google_form_selenium
        ⟨Except.ok (), Except.error PyExc.otherExc⟩ (Except.ok true)).2.events := by
  decide

/-- C10 (amended): when the browser launch itself fails nothing was created
and nothing need be quit; whenever `setup_driver` returns normally, the
created driver is quit on every exit path of the attempt — normal return or
an exception escaping the fill; but on the path where the launch succeeds
and `setup_driver`'s `execute_script` call then raises, `sys.exit(1)`
propagates with the created driver never quit. -/
theorem selenium_driver_teardown (w : SetupWorld) (fill : Except PyExc Bool) :
    (excFailed w.chromeResult = true →
      (submit_google_form_selenium w fill).2.events = []) ∧
    (excFailed w.chromeResult = false → excFailed w.scriptResult = false →
      (submit_google_form_selenium w fill).2.events
        = [DrvEvent.created, DrvEvent.quitted]) ∧
    (excFailed w.chromeResult = false → excFailed w.scriptResult = true →
      (submit_google_form_selenium w fill).2.events = [DrvEvent.created]) := by
  obtain ⟨c, sc⟩ := w
  cases c with
  | error e =>
    exact ⟨fun _ => by cases fill <;> rfl,
      fun h => absurd h (by simp [excFailed]),
      fun h => absurd h (by simp [excFailed])⟩
  | ok u =>
    cases sc with
    | error e2 =>
      exact ⟨fun h => absurd h (by simp [excFailed]),
        fun _ h => absurd h (by simp [excFailed]),
        fun _ _ => by cases fill <;> rfl⟩
    | ok u2 =>
      exact ⟨fun h => absurd h (by simp [excFailed]),
        fun _ _ => by cases fill <;> rfl,
        fun _ h => absurd h (by simp [excFailed])⟩

/-- Witness for C10 at a fault-free setup and a successful fill: creation
followed by teardown. -/
theorem selenium_driver_teardown_witness :
    (submit_google_form_selenium ⟨Except.ok (), Except.ok ()⟩
        (Except.ok true)).2.events = [DrvEvent.created, DrvEvent.quitted] :=
  (selenium_driver_teardown ⟨Except.ok (), Except.ok ()⟩ (Except.ok true)).2.1
    rfl rfl

end FormSubmit
